import Mathlib

/-!
Verification development for the pathfinder RPC layer
(`src/rpc/rpc_functions.rs`).

The file shallowly embeds the Rust source.  Machine integers become `Nat`
with explicit bounds (`U256` values are capped by `U256MAX = 2^256 - 1`),
fallible code returns `Except`, and the JSON values of the `json` crate
become the inductive `Json`.  Code of the repository that lives outside
`src/rpc/rpc_functions.rs` (the flow engine `graph::compute_flow`, the
`U256`/`Address` types, the edge-database dispenser and the binary
importer) is not part of the sources at hand; where a claim depends on it,
it is modelled from the specification, with a doc comment saying so.
-/

namespace Pathfinder

/-- `Address`: the 20-byte account identifier of `types::Address`,
modelled as its numeric value (a natural number below `2^160`). -/
abbrev Address := Nat

/-- `U256MAX`: the maximum representable 256-bit unsigned value,
`U256::MAX`. -/
def U256MAX : Nat := 2 ^ 256 - 1

/-- One capacitated edge `(from, to, token, capacity)` of the trust graph;
also the shape of one transfer step returned by the flow engine's
decomposition (the Rust code reuses `Edge` for both). -/
structure Edge where
  fromA : Address
  toA : Address
  token : Address
  capacity : Nat
deriving DecidableEq, Repr

/-- A graph snapshot: the edge collection of one `EdgeDB` version. -/
abbrev Graph := List Edge

/-- The JSON values of the `json` crate (`JsonValue`); the crate's two
string variants `Short` and `String` are collapsed into `str`, and numbers
are modelled as integers (the claims only exercise integral numbers). -/
inductive Json where
  | null
  | str (s : String)
  | num (n : Int)
  | bool (b : Bool)
  | obj (fields : List (String × Json))
  | arr (items : List Json)

/-- Indexing `value["key"]`: on an object, the first binding of the key,
otherwise the crate's `&NULL`. -/
def getKey (j : Json) (k : String) : Json :=
  match j with
  | .obj fields =>
    match fields.find? (fun kv => kv.1 == k) with
    | some kv => kv.2
    | none => .null
  | _ => .null

/-- `JsonValue::as_str`: `Some` exactly on the string variants. -/
def Json.asStr : Json → Option String
  | .str s => some s
  | _ => none

/-- `JsonValue::as_bool`: `Some` exactly on the boolean variant. -/
def Json.asBool : Json → Option Bool
  | .bool b => some b
  | _ => none

/-- `JsonValue::as_u64`: the number when it is representable as `u64`. -/
def Json.asU64 : Json → Option Nat
  | .num n => if 0 ≤ n ∧ n < (2 : Int) ^ 64 then some n.toNat else none
  | _ => none

/-- String escaping used by the `json` crate's serializer (quotes,
backslashes and the common control characters). -/
def escapeChar (c : Char) : String :=
  if c = '"' then "\\\""
  else if c = '\\' then "\\\\"
  else if c = '\n' then "\\n"
  else if c = '\r' then "\\r"
  else if c = '\t' then "\\t"
  else String.singleton c

/-- Escape a whole string for JSON serialization. -/
def escapeString (s : String) : String :=
  String.join (s.data.map escapeChar)

mutual

/-- `JsonValue::dump`: the compact JSON serialization. -/
def dump : Json → String
  | .null => "null"
  | .str s => "\"" ++ escapeString s ++ "\""
  | .num n => toString n
  | .bool b => if b then "true" else "false"
  | .obj fields => "\x7b" ++ dumpFields fields ++ "\x7d"
  | .arr items => "[" ++ dumpItems items ++ "]"

/-- Serialize the comma-separated bindings of an object. -/
def dumpFields : List (String × Json) → String
  | [] => ""
  | [kv] => "\"" ++ escapeString kv.1 ++ "\":" ++ dump kv.2
  | kv :: rest => "\"" ++ escapeString kv.1 ++ "\":" ++ dump kv.2 ++ "," ++ dumpFields rest

/-- Serialize the comma-separated items of an array. -/
def dumpItems : List Json → String
  | [] => ""
  | [j] => dump j
  | j :: rest => dump j ++ "," ++ dumpItems rest

end

/-- `fmt::Display for JsonValue` (what `.to_string()` produces): strings
print unquoted, `null`, booleans and numbers print their plain form, and
containers fall back to `dump`. -/
def jsonDisplay : Json → String
  | .null => "null"
  | .str s => s
  | .num n => toString n
  | .bool b => if b then "true" else "false"
  | .obj fields => dump (.obj fields)
  | .arr items => dump (.arr items)

/-- The JSON-RPC request record built by the FFI layer. -/
structure JsonRpcRequest where
  id : Json
  method : String
  params : Json

/-- The call context: `version` is the snapshot pinned at construction
(`None` when no graph has ever been loaded); its edges stand for
`call_context.version.unwrap().edges`.  The diagnostic `log_message`
side channel has no effect on any result and is not modelled. -/
structure CallContext where
  version : Option Graph

/-- The distinct failure shapes produced by `rpc_functions.rs`; the Rust
code wraps each in `InputValidationError` with a distinguishing message,
and the constructors carry exactly the data interpolated into that
message. -/
inductive RpcError where
  | noGraphLoaded
  | valueFormat (s : String)
  | valueRange (n : Nat)
  | addressFormat (s : String)
  | noRouteFound (value : Nat) (fromA toA : Address)
deriving DecidableEq, Repr

/-- The success payload of `compute_transfer`: the JSON object
`{maxFlowValue, final, transferSteps}` kept structurally (the decimal and
checksummed-hexadecimal rendering of its fields is pure formatting and is
not needed by any claim). -/
structure Success where
  maxFlowValue : Nat
  final : Bool
  transferSteps : List Edge
deriving DecidableEq, Repr

/-- `num_bigint`'s sign handling in `from_str_radix`: one leading `'+'`
is removed unless it is followed by another `'+'`. -/
def stripLeadingPlus (cs : List Char) : List Char :=
  match cs with
  | '+' :: tail =>
    match tail with
    | '+' :: _ => cs
    | _ => tail
  | _ => cs

/-- The digit loop of `num_bigint::BigUint::from_str_radix` at radix 10:
`'0'..='9'` yield their value, ASCII letters yield `10+` (hence fail the
`d < radix` check at radix 10), `'_'` is skipped, anything else fails. -/
def collectDigits : List Char → Option (List Nat)
  | [] => some []
  | c :: rest =>
    if c = '_' then collectDigits rest
    else
      let d : Nat :=
        if '0' ≤ c ∧ c ≤ '9' then c.toNat - '0'.toNat
        else if 'a' ≤ c ∧ c ≤ 'z' then c.toNat - 'a'.toNat + 10
        else if 'A' ≤ c ∧ c ≤ 'Z' then c.toNat - 'A'.toNat + 10
        else 255
      if d < 10 then (collectDigits rest).map (fun ds => d :: ds) else none

/-- Build the numeric value from the list of decimal digit values. -/
def digitsToNat (ds : List Nat) : Nat :=
  ds.foldl (fun acc d => acc * 10 + d) 0

/-- `BigUint::from_str` (i.e. `from_str_radix` at radix 10): strip one
leading `'+'`, reject the empty string and a leading `'_'`, then run the
digit loop.  `none` stands for any `ParseBigIntError`. -/
def biguintFromStr (s : String) : Option Nat :=
  let cs := stripLeadingPlus s.data
  if cs.isEmpty then none
  else if cs.head? = some '_' then none
  else (collectDigits cs).map digitsToNat

/-- `validate_and_parse_u256`: parse with `BigUint::from_str`; a parse
failure is the value-format error; a parsed value above `U256::MAX` is the
value-range error; otherwise `U256::from_bigint_truncating` (a `2^256`
truncation, vacuous under the guard) produces the result. -/
def validate_and_parse_u256 (s : String) : Except RpcError Nat :=
  match biguintFromStr s with
  | some n =>
    if n > U256MAX then .error (.valueRange n) else .ok (n % 2 ^ 256)
  | none => .error (.valueFormat s)

/-- A hexadecimal digit as accepted by the address pattern
`[0-9a-fA-F]`. -/
def isHexChar (c : Char) : Bool :=
  ('0' ≤ c ∧ c ≤ '9') ∨ ('a' ≤ c ∧ c ≤ 'f') ∨ ('A' ≤ c ∧ c ≤ 'F')

/-- The anchored match of the regex `^0x[0-9a-fA-F]{40}$` (the Rust
`regex` crate's `$` matches only at the very end of the haystack): two
leading characters `0` and `x`, then exactly forty hex digits. -/
def isEthAddressString (s : String) : Bool :=
  match s.data with
  | c0 :: c1 :: rest => c0 = '0' && c1 = 'x' && rest.length = 40 && rest.all isHexChar
  | _ => false

/-- The numeric value of one hex digit (only used on matched strings). -/
def hexVal (c : Char) : Nat :=
  if '0' ≤ c ∧ c ≤ '9' then c.toNat - '0'.toNat
  else if 'a' ≤ c ∧ c ≤ 'f' then c.toNat - 'a'.toNat + 10
  else if 'A' ≤ c ∧ c ≤ 'F' then c.toNat - 'A'.toNat + 10
  else 0

/-- Modelled from the spec: `Address::from(&str)` of the absent
`types.rs` decodes the canonical `0x`-prefixed hexadecimal form into the
20-byte identifier; here, into its numeric value. -/
def addressFromHex (s : String) : Address :=
  (s.data.drop 2).foldl (fun acc c => acc * 16 + hexVal c) 0

/-- `validate_and_parse_ethereum_address`: accept exactly the strings
matching `^0x[0-9a-fA-F]{40}$`, otherwise the address-format error.  The
function never touches the graph. -/
def validate_and_parse_ethereum_address (s : String) : Except RpcError Address :=
  if isEthAddressString s then .ok (addressFromHex s)
  else .error (.addressFormat s)

/-- The shape of `graph::compute_flow` as called by `compute_transfer`:
source, destination, the pinned snapshot's edges, the target value, the
optional maximum distance and the optional maximum number of transfers,
giving the achieved flow and its decomposition.  The engine itself lives
outside `rpc_functions.rs`, so `compute_transfer` is embedded
parametrically in it. -/
abbrev FlowFn :=
  Address → Address → Graph → Nat → Option Nat → Option Nat → Nat × List Edge

/-- Lines 99–102 of `rpc_functions.rs`: the target value is the validated
`"value"` parameter when that parameter is a JSON string, and `U256::MAX`
otherwise. -/
def parseValueParam (params : Json) : Except RpcError Nat :=
  match (getKey params "value").asStr with
  | some s => validate_and_parse_u256 s
  | none => .ok U256MAX

/-- The `for max_distance in max_distances` loop of `compute_transfer`:
the body unconditionally returns the rendered result of the first
attempt, so the trailing "Couldn't find a path" error is produced only
from an empty bound list. -/
def transferAttempts (flowFn : FlowFn) (fromA toA : Address) (g : Graph)
    (value : Nat) (maxTransfers : Option Nat) :
    List (Option Nat) → Except RpcError Success
  | [] => .error (.noRouteFound value fromA toA)
  | d :: _ =>
    let fr := flowFn fromA toA g value d maxTransfers
    .ok { maxFlowValue := fr.1, final := d.isNone, transferSteps := fr.2 }

/-- `compute_transfer` (lines 86–145 of `rpc_functions.rs`): check that a
snapshot is pinned, validate the value and the two addresses in order,
pick the bound list from the `iterative` flag, and run the attempt
loop. -/
def compute_transfer (flowFn : FlowFn) (request : JsonRpcRequest)
    (callContext : CallContext) : Except RpcError Success :=
  match callContext.version with
  | none => .error .noGraphLoaded
  | some edges => do
    let parsedValueParam ← parseValueParam request.params
    let fromAddress ←
      validate_and_parse_ethereum_address (jsonDisplay (getKey request.params "from"))
    let toAddress ←
      validate_and_parse_ethereum_address (jsonDisplay (getKey request.params "to"))
    let maxDistances : List (Option Nat) :=
      if ((getKey request.params "iterative").asBool.getD false) then
        [some 1, some 2, none]
      else [none]
    let maxTransfers := (getKey request.params "max_transfers").asU64
    transferAttempts flowFn fromAddress toAddress edges parsedValueParam
      maxTransfers maxDistances

/-- `load_safes_binary` (lines 78–84): import the file, count the edges,
install them in the dispenser, and return the count.  The importer
`io::import_from_safes_binary` is outside `rpc_functions.rs`, so its
outcome is a parameter; the dispenser is passed as explicit state (its
current snapshot), and `EdgeDB::edge_count` is the size of the edge
collection. -/
def load_safes_binary (importResult : Except String Graph)
    (dispenser : Option Graph) : Except String Nat × Option Graph :=
  match importResult with
  | .error e => (.error e, dispenser)
  | .ok updatedEdges => (.ok updatedEdges.length, some updatedEdges)

/-- `ffi_load_safes_binary` (lines 52–60): run `load_safes_binary` and
collapse a failure to `0` with `unwrap_or(0)`. -/
def ffi_load_safes_binary (importResult : Except String Graph)
    (dispenser : Option Graph) : Nat × Option Graph :=
  let r := load_safes_binary importResult dispenser
  (match r.1 with
   | .ok n => n
   | .error _ => 0,
   r.2)

/-! ## The flow engine, modelled from the spec

`graph::compute_flow` is not among the sources at hand.  The claims that
depend on it (C1, C3, C4) are settled against a model built from the
specification's §4.3: a transfer plan is a multiset of weighted
source-to-destination paths drawn from the snapshot's edges, respecting
every edge capacity and, when a hop bound is given, the per-path length
bound; the engine computes the greatest deliverable value, capped by the
target value. -/

/-- Modelled from the spec: a path is a chain of edges leading from `s`
to `t` (each edge leaves the node the previous one entered). -/
def isChain (s t : Address) : List Edge → Bool
  | [] => s = t
  | e :: rest => e.fromA = s && isChain e.toA t rest

/-- One weighted path of a transfer plan: the path and the value routed
along it. -/
structure WPath where
  path : List Edge
  value : Nat
deriving DecidableEq, Repr

/-- Modelled from the spec: a weighted path is admissible for a query
when it is a nonempty chain from source to destination, routes a positive
value, uses only snapshot edges, and respects the hop bound. -/
def pathOK (g : Graph) (s t : Address) (hops : Option Nat) (wp : WPath) : Prop :=
  isChain s t wp.path = true ∧ wp.path ≠ [] ∧ 0 < wp.value ∧
    (∀ e ∈ wp.path, e ∈ g) ∧
    (match hops with
     | none => True
     | some k => wp.path.length ≤ k)

/-- Total value a plan routes through a given edge. -/
def usage (p : List WPath) (e : Edge) : Nat :=
  (p.map (fun wp => wp.value * wp.path.count e)).sum

/-- Modelled from the spec: a valid transfer plan for a query — every
weighted path is admissible and no edge routes more than its capacity. -/
def validPlan (g : Graph) (s t : Address) (hops : Option Nat)
    (p : List WPath) : Prop :=
  (∀ wp ∈ p, pathOK g s t hops wp) ∧ ∀ e ∈ g, usage p e ≤ e.capacity

/-- The total value a plan delivers from source to destination. -/
def delivers (p : List WPath) : Nat :=
  (p.map (fun wp => wp.value)).sum

/-- Modelled from the spec: `v` is deliverable when some valid plan
delivers it. -/
def feasibleFlow (g : Graph) (s t : Address) (hops : Option Nat) (v : Nat) : Prop :=
  ∃ p, validPlan g s t hops p ∧ delivers p = v

/-- The sum of all edge capacities: an a-priori bound on any deliverable
value. -/
def capSum (g : Graph) : Nat :=
  (g.map (fun e => e.capacity)).sum

open Classical in
/-- Modelled from the spec: the maximum deliverable value between two
accounts under an optional hop bound — the greatest feasible value (the
search is bounded by the capacity sum). -/
noncomputable def maxflowNat (g : Graph) (s t : Address) (hops : Option Nat) : Nat :=
  Nat.findGreatest (feasibleFlow g s t hops) (capSum g)

/-- Modelled from the spec: the flow engine's value behaviour on calls
with no step bound — the maximum deliverable value capped by the target
(§4.3: "once the cumulative routed value would reach the target,
flow-finding stops").  When `max_steps` is present and binds, §4.3 only
requires a value "actually deliverable in that truncated plan" and §9
declares the truncation policy unspecified, so no exact value is
spec-determined; every use of this model in this file therefore
instantiates it at `max_transfers = none`, where it matches the spec
exactly.  Only the achieved value is modelled; no claim depends on the
contents of the returned decomposition, which is left empty here. -/
noncomputable def specEngineValueOnly : FlowFn :=
  fun s t g target hops _ => (min target (maxflowNat g s t hops), [])

/-- A trivial flow function used to instantiate `FlowFn`-quantified
statements at a concrete input. -/
def zeroEngine : FlowFn := fun _ _ _ _ _ _ => (0, [])

/-! ### Concrete fixtures used by witnesses and counterexamples -/

/-- Canonical 42-character string of address `1`. -/
def addr1Str : String := "0x0000000000000000000000000000000000000001"

/-- Canonical 42-character string of address `2`. -/
def addr2Str : String := "0x0000000000000000000000000000000000000002"

/-- Canonical 42-character string of address `3`. -/
def addr3Str : String := "0x0000000000000000000000000000000000000003"

/-- Canonical 42-character string of address `4`. -/
def addr4Str : String := "0x0000000000000000000000000000000000000004"

/-- A graph holding one edge `2 → 3`; accounts `1` and `4` are not
connected at all. -/
def gNoRoute : Graph := [⟨2, 3, 9, 5⟩]

/-- The two-hop chain `1 → 2 → 3`, thirty units of capacity on each
edge. -/
def gChain : Graph := [⟨1, 2, 9, 30⟩, ⟨2, 3, 9, 30⟩]

/-- A single edge `1 → 2` with capacity fifty. -/
def gSingle : Graph := [⟨1, 2, 9, 50⟩]

/-- Query `1 → 4` for ten units on `gNoRoute` (no route exists). -/
def reqNoRoute : JsonRpcRequest :=
  ⟨.null, "compute_transfer",
    .obj [("value", .str "10"), ("from", .str addr1Str), ("to", .str addr4Str)]⟩

/-- Iterative query `1 → 3` for one hundred units on `gChain`. -/
def reqIter100 : JsonRpcRequest :=
  ⟨.null, "compute_transfer",
    .obj [("value", .str "100"), ("from", .str addr1Str), ("to", .str addr3Str),
          ("iterative", .bool true)]⟩

/-- Iterative query `1 → 3` for thirty units on `gChain` (a thirty-unit
plan exists in the snapshot, but not within one hop). -/
def reqIter30 : JsonRpcRequest :=
  ⟨.null, "compute_transfer",
    .obj [("value", .str "30"), ("from", .str addr1Str), ("to", .str addr3Str),
          ("iterative", .bool true)]⟩

/-- Non-iterative query `1 → 2` for ten units on `gSingle`. -/
def reqSingle10 : JsonRpcRequest :=
  ⟨.null, "compute_transfer",
    .obj [("value", .str "10"), ("from", .str addr1Str), ("to", .str addr2Str)]⟩

/-- Spec words of claim C6 as frozen: "a valid unsigned decimal numeral
(non-negative, no separators)" — a nonempty string of decimal digits
only. -/
def isUnsignedDecimalNumeral (s : String) : Bool :=
  !s.data.isEmpty && s.data.all (fun c => c.isDigit)

/-- Spec words of the amended claim C6: after removing one leading `'+'`
(unless a second `'+'` follows), the string must be nonempty, begin with
a decimal digit, and consist of decimal digits and underscore separators;
its value is the value of its digits. -/
def acceptedNumeral (s : String) : Option Nat :=
  match stripLeadingPlus s.data with
  | [] => none
  | c :: rest =>
    if c.isDigit ∧ (c :: rest).all (fun ch => ch.isDigit ∨ ch = '_')
    then some (digitsToNat (((c :: rest).filter (fun ch => ch.isDigit)).map
      (fun ch => ch.toNat - '0'.toNat)))
    else none

/-! ## Lemmas about the modelled flow engine -/

lemma usage_nil (e : Edge) : usage [] e = 0 := rfl

lemma usage_cons (wp : WPath) (p : List WPath) (e : Edge) :
    usage (wp :: p) e = wp.value * wp.path.count e + usage p e := by
  simp [usage]

lemma sum_map_add_nat {α : Type} (l : List α) (f h : α → Nat) :
    (l.map (fun x => f x + h x)).sum = (l.map f).sum + (l.map h).sum := by
  induction l with
  | nil => simp
  | cons a l ih => simp only [List.map_cons, List.sum_cons, ih]; omega

/-- A plan of admissible weighted paths delivers at most the edge-usage
it induces, summed over the distinct snapshot edges: every path routes
its value through at least its first edge. -/
lemma delivers_le_dedup_usage (g : Graph) (s t : Address) (hops : Option Nat) :
    ∀ p : List WPath, (∀ wp ∈ p, pathOK g s t hops wp) →
      delivers p ≤ (g.dedup.map (usage p)).sum := by
  intro p
  induction p with
  | nil => intro _; simp [delivers]
  | cons wp rest ih =>
    intro hp
    have hwp := hp wp (List.mem_cons_self _ _)
    have hrest := ih (fun w hw => hp w (List.mem_cons_of_mem _ hw))
    have hsplit : (g.dedup.map (usage (wp :: rest))).sum
        = (g.dedup.map (fun e => wp.value * wp.path.count e)).sum
          + (g.dedup.map (usage rest)).sum := by
      rw [← sum_map_add_nat]
      apply congrArg List.sum
      apply List.map_congr_left
      intro e _
      exact usage_cons wp rest e
    have hhead : wp.value ≤ (g.dedup.map (fun e => wp.value * wp.path.count e)).sum := by
      obtain ⟨_, hne, _, hmem, _⟩ := hwp
      obtain ⟨e0, tl, he0⟩ := List.exists_cons_of_ne_nil hne
      have he0mem : e0 ∈ wp.path := by rw [he0]; exact List.mem_cons_self _ _
      have he0g : e0 ∈ g.dedup := List.mem_dedup.mpr (hmem e0 he0mem)
      have hcount : 1 ≤ wp.path.count e0 := List.count_pos_iff.mpr he0mem
      calc wp.value = wp.value * 1 := (Nat.mul_one _).symm
        _ ≤ wp.value * wp.path.count e0 := Nat.mul_le_mul_left _ hcount
        _ ≤ (g.dedup.map (fun e => wp.value * wp.path.count e)).sum :=
            List.single_le_sum (fun x _ => Nat.zero_le x) _
              (List.mem_map_of_mem _ he0g)
    calc delivers (wp :: rest) = wp.value + delivers rest := by simp [delivers]
      _ ≤ (g.dedup.map (fun e => wp.value * wp.path.count e)).sum
            + (g.dedup.map (usage rest)).sum := Nat.add_le_add hhead hrest
      _ = (g.dedup.map (usage (wp :: rest))).sum := hsplit.symm

/-- Any deliverable value is bounded by the sum of all capacities. -/
lemma feasible_le_capSum (g : Graph) (s t : Address) (hops : Option Nat)
    (v : Nat) (h : feasibleFlow g s t hops v) : v ≤ capSum g := by
  obtain ⟨p, ⟨hpaths, hcap⟩, hdel⟩ := h
  calc v = delivers p := hdel.symm
    _ ≤ (g.dedup.map (usage p)).sum := delivers_le_dedup_usage g s t hops p hpaths
    _ ≤ (g.dedup.map (fun e => e.capacity)).sum :=
        List.sum_le_sum (fun e he => hcap e (List.mem_dedup.mp he))
    _ ≤ (g.map (fun e => e.capacity)).sum :=
        List.Sublist.sum_le_sum ((g.dedup_sublist).map _) (fun x _ => Nat.zero_le x)
    _ = capSum g := rfl

open Classical in
/-- Every feasible value is at most the modelled maximum flow. -/
lemma le_maxflowNat (g : Graph) (s t : Address) (hops : Option Nat) (v : Nat)
    (h : feasibleFlow g s t hops v) : v ≤ maxflowNat g s t hops := by
  unfold maxflowNat
  exact Nat.le_findGreatest (feasible_le_capSum g s t hops v h) h

open Classical in
/-- When no positive value is feasible, the modelled maximum flow is
zero. -/
lemma maxflowNat_eq_zero (g : Graph) (s t : Address) (hops : Option Nat)
    (h : ∀ v, 0 < v → ¬feasibleFlow g s t hops v) : maxflowNat g s t hops = 0 := by
  unfold maxflowNat
  exact Nat.findGreatest_eq_zero_iff.mpr (fun n hn _ => h n hn)

/-- A plan that delivers a positive value contains an admissible path
whose first edge leaves the source. -/
lemma exists_first_edge (g : Graph) (s t : Address) (hops : Option Nat)
    (p : List WPath) (hpaths : ∀ wp ∈ p, pathOK g s t hops wp)
    (hpos : 0 < delivers p) :
    ∃ wp ∈ p, ∃ e0 tl, wp.path = e0 :: tl ∧ e0.fromA = s ∧ e0 ∈ g := by
  cases p with
  | nil => simp [delivers] at hpos
  | cons wp rest =>
    have hwp := hpaths wp (List.mem_cons_self _ _)
    obtain ⟨hchain, hne, _, hmem, _⟩ := hwp
    obtain ⟨e0, tl, he0⟩ := List.exists_cons_of_ne_nil hne
    refine ⟨wp, List.mem_cons_self _ _, e0, tl, he0, ?_, ?_⟩
    · have := hchain
      rw [he0] at this
      simp only [isChain, Bool.and_eq_true, decide_eq_true_eq] at this
      exact this.1
    · exact hmem e0 (by rw [he0]; exact List.mem_cons_self _ _)

/-- In `gNoRoute` nothing leaves account `1`, so no positive value is
deliverable from `1` to `4` under any hop bound. -/
lemma gNoRoute_no_flow (hops : Option Nat) :
    ∀ v, 0 < v → ¬feasibleFlow gNoRoute 1 4 hops v := by
  rintro v hv ⟨p, ⟨hpaths, _⟩, hdel⟩
  obtain ⟨wp, _, e0, tl, _, hfrom, heg⟩ :=
    exists_first_edge gNoRoute 1 4 hops p hpaths (hdel ▸ hv)
  simp only [gNoRoute, List.mem_singleton] at heg
  rw [heg] at hfrom
  simp at hfrom

/-- Within one hop, nothing is deliverable from `1` to `3` in `gChain`:
neither edge goes from `1` directly to `3`. -/
lemma gChain_hop1_no_flow :
    ∀ v, 0 < v → ¬feasibleFlow gChain 1 3 (some 1) v := by
  rintro v hv ⟨p, ⟨hpaths, _⟩, hdel⟩
  have hpos : 0 < delivers p := hdel ▸ hv
  cases p with
  | nil => simp [delivers] at hpos
  | cons wp rest =>
    have hwp := hpaths wp (List.mem_cons_self _ _)
    obtain ⟨hchain, hne, _, hmem, hlen⟩ := hwp
    obtain ⟨e0, tl, he0⟩ := List.exists_cons_of_ne_nil hne
    have htl : tl = [] := by
      rw [he0] at hlen
      simp only [List.length_cons] at hlen
      exact List.eq_nil_of_length_eq_zero (by omega)
    rw [he0, htl] at hchain
    simp only [isChain, Bool.and_eq_true, decide_eq_true_eq] at hchain
    have heg : e0 ∈ gChain := hmem e0 (by rw [he0, htl]; exact List.mem_cons_self _ _)
    simp only [gChain, List.mem_cons, List.mem_singleton] at heg
    rcases heg with h | h | h
    · rw [h] at hchain; simp at hchain
    · rw [h] at hchain; simp at hchain
    · simp at h

/-- Thirty units are deliverable from `1` to `3` in `gChain` without a
hop bound: route them along the two-edge chain. -/
lemma gChain_feasible_30 : feasibleFlow gChain 1 3 none 30 := by
  refine ⟨[⟨[⟨1, 2, 9, 30⟩, ⟨2, 3, 9, 30⟩], 30⟩], ⟨?_, ?_⟩, rfl⟩
  · intro wp hwp
    simp only [List.mem_singleton] at hwp
    subst hwp
    refine ⟨by decide, by decide, by decide, by decide, trivial⟩
  · intro e he
    simp only [gChain, List.mem_cons, List.mem_singleton] at he
    rcases he with h | h | h
    · subst h; decide
    · subst h; decide
    · simp at h

/-- Ten units are deliverable from `1` to `2` in `gSingle`. -/
lemma gSingle_feasible_10 : feasibleFlow gSingle 1 2 none 10 := by
  refine ⟨[⟨[⟨1, 2, 9, 50⟩], 10⟩], ⟨?_, ?_⟩, rfl⟩
  · intro wp hwp
    simp only [List.mem_singleton] at hwp
    subst hwp
    refine ⟨by decide, by decide, by decide, by decide, trivial⟩
  · intro e he
    simp only [gSingle, List.mem_singleton] at he
    subst he; decide

/-! ## Evaluation lemmas for `compute_transfer` -/

/-- With a pinned snapshot, a validated value and two validated
addresses, a non-iterative request performs exactly one unbounded
attempt and returns its rendered result. -/
lemma compute_transfer_run_noniter (flowFn : FlowFn) (id : Json) (mth : String)
    (params : Json) (g : Graph) (v : Nat) (a b : Address)
    (hv : parseValueParam params = .ok v)
    (ha : validate_and_parse_ethereum_address (jsonDisplay (getKey params "from")) = .ok a)
    (hb : validate_and_parse_ethereum_address (jsonDisplay (getKey params "to")) = .ok b)
    (hit : (getKey params "iterative").asBool.getD false = false) :
    compute_transfer flowFn ⟨id, mth, params⟩ ⟨some g⟩ =
      .ok ⟨(flowFn a b g v none ((getKey params "max_transfers").asU64)).1, true,
           (flowFn a b g v none ((getKey params "max_transfers").asU64)).2⟩ := by
  unfold compute_transfer
  rw [hv]
  show (do
    let fromAddress ← validate_and_parse_ethereum_address (jsonDisplay (getKey params "from"))
    let toAddress ← validate_and_parse_ethereum_address (jsonDisplay (getKey params "to"))
    let maxDistances : List (Option Nat) :=
      if ((getKey params "iterative").asBool.getD false) then [some 1, some 2, none] else [none]
    let maxTransfers := (getKey params "max_transfers").asU64
    transferAttempts flowFn fromAddress toAddress g v maxTransfers maxDistances :
      Except RpcError Success) = _
  rw [ha, hb]
  show (let maxDistances : List (Option Nat) :=
      if ((getKey params "iterative").asBool.getD false) then [some 1, some 2, none] else [none]
    transferAttempts flowFn a b g v ((getKey params "max_transfers").asU64) maxDistances :
      Except RpcError Success) = _
  rw [hit]
  rfl

/-- With the `iterative` flag set, exactly one attempt is performed, with
hop bound `1`, and its result is returned with `final := false`. -/
lemma compute_transfer_run_iter (flowFn : FlowFn) (id : Json) (mth : String)
    (params : Json) (g : Graph) (v : Nat) (a b : Address)
    (hv : parseValueParam params = .ok v)
    (ha : validate_and_parse_ethereum_address (jsonDisplay (getKey params "from")) = .ok a)
    (hb : validate_and_parse_ethereum_address (jsonDisplay (getKey params "to")) = .ok b)
    (hit : (getKey params "iterative").asBool.getD false = true) :
    compute_transfer flowFn ⟨id, mth, params⟩ ⟨some g⟩ =
      .ok ⟨(flowFn a b g v (some 1) ((getKey params "max_transfers").asU64)).1, false,
           (flowFn a b g v (some 1) ((getKey params "max_transfers").asU64)).2⟩ := by
  unfold compute_transfer
  rw [hv]
  show (do
    let fromAddress ← validate_and_parse_ethereum_address (jsonDisplay (getKey params "from"))
    let toAddress ← validate_and_parse_ethereum_address (jsonDisplay (getKey params "to"))
    let maxDistances : List (Option Nat) :=
      if ((getKey params "iterative").asBool.getD false) then [some 1, some 2, none] else [none]
    let maxTransfers := (getKey params "max_transfers").asU64
    transferAttempts flowFn fromAddress toAddress g v maxTransfers maxDistances :
      Except RpcError Success) = _
  rw [ha, hb]
  show (let maxDistances : List (Option Nat) :=
      if ((getKey params "iterative").asBool.getD false) then [some 1, some 2, none] else [none]
    transferAttempts flowFn a b g v ((getKey params "max_transfers").asU64) maxDistances :
      Except RpcError Success) = _
  rw [hit]
  rfl

/-- A failing value parameter aborts the computation with its error, no
matter what the address parameters hold. -/
lemma compute_transfer_value_error (flowFn : FlowFn) (id : Json) (mth : String)
    (params : Json) (g : Graph) (err : RpcError)
    (hv : parseValueParam params = .error err) :
    compute_transfer flowFn ⟨id, mth, params⟩ ⟨some g⟩ = .error err := by
  unfold compute_transfer
  rw [hv]
  rfl

/-- With the value parameter in order, a failing `from` address aborts
the computation with its error, no matter what `to` holds. -/
lemma compute_transfer_from_error (flowFn : FlowFn) (id : Json) (mth : String)
    (params : Json) (g : Graph) (v : Nat) (err : RpcError)
    (hv : parseValueParam params = .ok v)
    (ha : validate_and_parse_ethereum_address (jsonDisplay (getKey params "from")) = .error err) :
    compute_transfer flowFn ⟨id, mth, params⟩ ⟨some g⟩ = .error err := by
  unfold compute_transfer
  rw [hv]
  show (do
    let fromAddress ← validate_and_parse_ethereum_address (jsonDisplay (getKey params "from"))
    let toAddress ← validate_and_parse_ethereum_address (jsonDisplay (getKey params "to"))
    let maxDistances : List (Option Nat) :=
      if ((getKey params "iterative").asBool.getD false) then [some 1, some 2, none] else [none]
    let maxTransfers := (getKey params "max_transfers").asU64
    transferAttempts flowFn fromAddress toAddress g v maxTransfers maxDistances :
      Except RpcError Success) = _
  rw [ha]
  rfl

/-- With the value and `from` parameters in order, a failing `to` address
aborts the computation with its error. -/
lemma compute_transfer_to_error (flowFn : FlowFn) (id : Json) (mth : String)
    (params : Json) (g : Graph) (v : Nat) (a : Address) (err : RpcError)
    (hv : parseValueParam params = .ok v)
    (ha : validate_and_parse_ethereum_address (jsonDisplay (getKey params "from")) = .ok a)
    (hb : validate_and_parse_ethereum_address (jsonDisplay (getKey params "to")) = .error err) :
    compute_transfer flowFn ⟨id, mth, params⟩ ⟨some g⟩ = .error err := by
  unfold compute_transfer
  rw [hv]
  show (do
    let fromAddress ← validate_and_parse_ethereum_address (jsonDisplay (getKey params "from"))
    let toAddress ← validate_and_parse_ethereum_address (jsonDisplay (getKey params "to"))
    let maxDistances : List (Option Nat) :=
      if ((getKey params "iterative").asBool.getD false) then [some 1, some 2, none] else [none]
    let maxTransfers := (getKey params "max_transfers").asU64
    transferAttempts flowFn fromAddress toAddress g v maxTransfers maxDistances :
      Except RpcError Success) = _
  rw [ha, hb]
  rfl

/-! ## Lemmas about the decimal-value parser -/

lemma digitCond_iff (c : Char) : ('0' ≤ c ∧ c ≤ '9') ↔ c.isDigit = true := by
  simp [Char.isDigit, Char.le_def]

lemma collectDigits_cons_underscore (rest : List Char) :
    collectDigits ('_' :: rest) = collectDigits rest := by
  conv_lhs => rw [collectDigits]
  rw [if_pos rfl]

lemma collectDigits_cons_digit (c : Char) (rest : List Char) (h : c.isDigit = true) :
    collectDigits (c :: rest) =
      (collectDigits rest).map (fun ds => (c.toNat - '0'.toNat) :: ds) := by
  have hc : '0' ≤ c ∧ c ≤ '9' := (digitCond_iff c).mpr h
  have hu : ¬(c = '_') := by
    rintro rfl
    simp [Char.isDigit] at h
  have hlt : c.toNat - '0'.toNat < 10 := by
    simp [Char.isDigit] at h
    obtain ⟨h1, h2⟩ := h
    have h1' : 48 ≤ c.toNat := h1
    have h2' : c.toNat ≤ 57 := h2
    show c.toNat - 48 < 10
    omega
  conv_lhs => rw [collectDigits]
  rw [if_neg hu]
  simp only [if_pos hc, if_pos hlt]

lemma collectDigits_cons_bad (c : Char) (rest : List Char)
    (hd : c.isDigit = false) (hu : c ≠ '_') :
    collectDigits (c :: rest) = none := by
  have hnd : ¬('0' ≤ c ∧ c ≤ '9') := fun h => by
    rw [(digitCond_iff c).mp h] at hd
    cases hd
  conv_lhs => rw [collectDigits]
  rw [if_neg hu]
  simp only [if_neg hnd]
  split_ifs with h2 h3 <;> first | rfl | omega

/-- On a string of digits and underscores the digit loop returns exactly
the values of the digits, in order. -/
lemma collectDigits_all_good :
    ∀ cs : List Char, (∀ c ∈ cs, c.isDigit = true ∨ c = '_') →
      collectDigits cs =
        some ((cs.filter (fun c => c.isDigit)).map (fun c => c.toNat - '0'.toNat)) := by
  intro cs
  induction cs with
  | nil => intro _; rfl
  | cons c rest ih =>
    intro h
    have hrest := ih (fun x hx => h x (List.mem_cons_of_mem _ hx))
    rcases h c (List.mem_cons_self _ _) with hd | hu
    · rw [collectDigits_cons_digit c rest hd, hrest]
      simp [List.filter_cons, hd]
    · subst hu
      rw [collectDigits_cons_underscore, hrest]
      simp [List.filter_cons]

/-- One character that is neither a digit nor an underscore makes the
digit loop fail. -/
lemma collectDigits_some_bad :
    ∀ cs : List Char, (∃ c ∈ cs, ¬(c.isDigit = true ∨ c = '_')) →
      collectDigits cs = none := by
  intro cs
  induction cs with
  | nil => rintro ⟨x, hx, _⟩; cases hx
  | cons c rest ih =>
    rintro ⟨x, hx, hbad⟩
    rcases List.mem_cons.mp hx with rfl | hxrest
    · push_neg at hbad
      have hd : x.isDigit = false := by
        cases h : x.isDigit
        · rfl
        · exact absurd h hbad.1
      exact collectDigits_cons_bad x rest hd hbad.2
    · by_cases hu : c = '_'
      · subst hu
        rw [collectDigits_cons_underscore]
        exact ih ⟨x, hxrest, hbad⟩
      · cases hd : c.isDigit
        · exact collectDigits_cons_bad c rest hd hu
        · rw [collectDigits_cons_digit c rest hd, ih ⟨x, hxrest, hbad⟩]
          rfl

/-- The embedded `BigUint::from_str` agrees with the declarative
`acceptedNumeral` reading of the amended claim. -/
lemma biguintFromStr_eq_acceptedNumeral (s : String) :
    biguintFromStr s = acceptedNumeral s := by
  unfold biguintFromStr acceptedNumeral
  cases hcs : stripLeadingPlus s.data with
  | nil => rfl
  | cons c rest =>
    simp only [List.isEmpty_cons, List.head?_cons]
    by_cases hu : c = '_'
    · subst hu
      rw [if_neg (by simp), if_pos rfl]
      rw [if_neg (fun h => by simpa using h.1)]
    · rw [if_neg (by simp), if_neg (by simpa using hu)]
      by_cases hall : ∀ ch ∈ (c :: rest), (ch.isDigit = true ∨ ch = '_')
      · have hcd : c.isDigit = true := by
          rcases hall c (List.mem_cons_self _ _) with h | h
          · exact h
          · exact absurd h hu
        rw [collectDigits_all_good _ hall]
        rw [if_pos ⟨hcd, by
          rw [List.all_eq_true]
          intro x hx
          rcases hall x hx with h | h
          · simp [h]
          · simp [h]⟩]
        rfl
      · push_neg at hall
        obtain ⟨x, hx, hbad⟩ := hall
        rw [collectDigits_some_bad _ ⟨x, hx, by push_neg; exact hbad⟩]
        split_ifs with hcond
        · obtain ⟨-, hall2⟩ := hcond
          rw [List.all_eq_true] at hall2
          have hth := hall2 x hx
          simp only [decide_eq_true_eq] at hth
          exact absurd hth (by push_neg; exact hbad)
        · rfl

/-! ## Lemmas about the address validator -/

/-- The regex match holds exactly on `"0x"` followed by forty hex
digits. -/
lemma isEthAddressString_iff (s : String) :
    isEthAddressString s = true ↔
      ∃ t : String, s = "0x" ++ t ∧ t.length = 40 ∧ ∀ c ∈ t.data, isHexChar c = true := by
  constructor
  · intro h
    obtain ⟨data⟩ := s
    cases data with
    | nil => simp [isEthAddressString] at h
    | cons c0 tl =>
      cases tl with
      | nil => simp [isEthAddressString] at h
      | cons c1 rest =>
        simp only [isEthAddressString, Bool.and_eq_true, decide_eq_true_eq,
          List.all_eq_true] at h
        obtain ⟨⟨⟨h0, h1⟩, hlen⟩, hall⟩ := h
        subst h0
        subst h1
        refine ⟨⟨rest⟩, rfl, hlen, fun c hc => hall c hc⟩
  · rintro ⟨t, rfl, hlen, hall⟩
    obtain ⟨td⟩ := t
    show isEthAddressString ⟨'0' :: 'x' :: td⟩ = true
    simp only [isEthAddressString, Bool.and_eq_true, decide_eq_true_eq,
      List.all_eq_true]
    refine ⟨⟨⟨?_, ?_⟩, hlen⟩, fun c hc => hall c hc⟩ <;> simp

/-! ## Claim theorems -/

/-- C2: for every request, when no graph snapshot has ever been loaded
(the context's pinned version is absent), `compute_transfer` fails
immediately with `NoGraphLoadedError`; no flow computation is attempted
(the result is the same for every flow function). -/
theorem C2_no_graph_loaded_error :
    ∀ (flowFn : FlowFn) (request : JsonRpcRequest),
      compute_transfer flowFn request ⟨none⟩ = .error .noGraphLoaded :=
  fun _ _ => rfl

/-- C5: when the `value` parameter is absent, `compute_transfer` uses
`U256::MAX` as the target value passed to the flow computation. -/
theorem C5_absent_value_uses_max :
    ∀ (flowFn : FlowFn) (id : Json) (mth : String) (params : Json)
      (g : Graph) (a b : Address),
      getKey params "value" = .null →
      validate_and_parse_ethereum_address (jsonDisplay (getKey params "from")) = .ok a →
      validate_and_parse_ethereum_address (jsonDisplay (getKey params "to")) = .ok b →
      (getKey params "iterative").asBool.getD false = false →
      compute_transfer flowFn ⟨id, mth, params⟩ ⟨some g⟩ =
        .ok ⟨(flowFn a b g U256MAX none ((getKey params "max_transfers").asU64)).1, true,
             (flowFn a b g U256MAX none ((getKey params "max_transfers").asU64)).2⟩ := by
  intro flowFn id mth params g a b hnull ha hb hit
  have hv : parseValueParam params = .ok U256MAX := by
    unfold parseValueParam
    rw [hnull]
    rfl
  exact compute_transfer_run_noniter flowFn id mth params g U256MAX a b hv ha hb hit

/-- C5 witness: a concrete request without a `value` parameter reaches
the flow function with target `U256MAX`. -/
theorem C5_absent_value_uses_max_witness :
    compute_transfer zeroEngine
      ⟨.null, "compute_transfer", .obj [("from", .str addr1Str), ("to", .str addr2Str)]⟩
      ⟨some gSingle⟩ = .ok ⟨0, true, []⟩ :=
  C5_absent_value_uses_max zeroEngine .null "compute_transfer"
    (.obj [("from", .str addr1Str), ("to", .str addr2Str)])
    gSingle 1 2 rfl rfl rfl rfl

/-- C9: when the `value` parameter is present but is not a JSON string,
`compute_transfer` treats it exactly as absent — the target becomes
`U256::MAX` — and no value-format error is raised. -/
theorem C9_nonstring_value_uses_max :
    ∀ (flowFn : FlowFn) (id : Json) (mth : String) (params : Json)
      (g : Graph) (a b : Address) (v : Json),
      v.asStr = none →
      getKey params "value" = v →
      validate_and_parse_ethereum_address (jsonDisplay (getKey params "from")) = .ok a →
      validate_and_parse_ethereum_address (jsonDisplay (getKey params "to")) = .ok b →
      (getKey params "iterative").asBool.getD false = false →
      compute_transfer flowFn ⟨id, mth, params⟩ ⟨some g⟩ =
        .ok ⟨(flowFn a b g U256MAX none ((getKey params "max_transfers").asU64)).1, true,
             (flowFn a b g U256MAX none ((getKey params "max_transfers").asU64)).2⟩ := by
  intro flowFn id mth params g a b v hstr hkey ha hb hit
  have hv : parseValueParam params = .ok U256MAX := by
    unfold parseValueParam
    rw [hkey, hstr]
  exact compute_transfer_run_noniter flowFn id mth params g U256MAX a b hv ha hb hit

/-- C9 witness: a JSON number in the `value` slot is treated as an
absent value, with target `U256MAX` and no error. -/
theorem C9_nonstring_value_uses_max_witness :
    compute_transfer zeroEngine
      ⟨.null, "compute_transfer",
        .obj [("value", .num 42), ("from", .str addr1Str), ("to", .str addr2Str)]⟩
      ⟨some gSingle⟩ = .ok ⟨0, true, []⟩ :=
  C9_nonstring_value_uses_max zeroEngine .null "compute_transfer"
    (.obj [("value", .num 42), ("from", .str addr1Str), ("to", .str addr2Str)])
    gSingle 1 2 (.num 42) rfl rfl rfl rfl rfl

/-- C8: the no-graph check precedes all parameter validation, and within
validation the value parameter is checked before `from`, which is checked
before `to`; the single reported error follows this fixed order. -/
theorem C8_error_priority_order :
    (∀ (flowFn : FlowFn) (request : JsonRpcRequest),
      compute_transfer flowFn request ⟨none⟩ = .error .noGraphLoaded)
    ∧ (∀ (flowFn : FlowFn) (id : Json) (mth : String) (params : Json)
        (g : Graph) (s : String) (err : RpcError),
        getKey params "value" = .str s →
        validate_and_parse_u256 s = .error err →
        compute_transfer flowFn ⟨id, mth, params⟩ ⟨some g⟩ = .error err)
    ∧ (∀ (flowFn : FlowFn) (id : Json) (mth : String) (params : Json)
        (g : Graph) (v : Nat) (err : RpcError),
        parseValueParam params = .ok v →
        validate_and_parse_ethereum_address (jsonDisplay (getKey params "from")) = .error err →
        compute_transfer flowFn ⟨id, mth, params⟩ ⟨some g⟩ = .error err)
    ∧ (∀ (flowFn : FlowFn) (id : Json) (mth : String) (params : Json)
        (g : Graph) (v : Nat) (a : Address) (err : RpcError),
        parseValueParam params = .ok v →
        validate_and_parse_ethereum_address (jsonDisplay (getKey params "from")) = .ok a →
        validate_and_parse_ethereum_address (jsonDisplay (getKey params "to")) = .error err →
        compute_transfer flowFn ⟨id, mth, params⟩ ⟨some g⟩ = .error err) := by
  refine ⟨fun _ _ => rfl, ?_, ?_, ?_⟩
  · intro flowFn id mth params g s err hval herr
    apply compute_transfer_value_error
    unfold parseValueParam
    rw [hval]
    exact herr
  · intro flowFn id mth params g v err hv ha
    exact compute_transfer_from_error flowFn id mth params g v err hv ha
  · intro flowFn id mth params g v a err hv ha hb
    exact compute_transfer_to_error flowFn id mth params g v a err hv ha hb

/-- C8 witness: on concrete malformed requests exactly the
highest-priority error is reported — no-graph before a bad value, a bad
value before a bad `from`, a bad `from` before a bad `to`. -/
theorem C8_error_priority_order_witness :
    compute_transfer zeroEngine
      ⟨.null, "m", .obj [("value", .str "zz"), ("from", .str "bad")]⟩ ⟨none⟩
      = .error .noGraphLoaded
    ∧ compute_transfer zeroEngine
      ⟨.null, "m", .obj [("value", .str "zz"), ("from", .str "bad"), ("to", .str "bad2")]⟩
      ⟨some gSingle⟩ = .error (.valueFormat "zz")
    ∧ compute_transfer zeroEngine
      ⟨.null, "m", .obj [("from", .str "bad"), ("to", .str "bad2")]⟩
      ⟨some gSingle⟩ = .error (.addressFormat "bad")
    ∧ compute_transfer zeroEngine
      ⟨.null, "m", .obj [("from", .str addr1Str), ("to", .str "bad2")]⟩
      ⟨some gSingle⟩ = .error (.addressFormat "bad2") :=
  ⟨C8_error_priority_order.1 zeroEngine _,
   C8_error_priority_order.2.1 zeroEngine .null "m"
     (.obj [("value", .str "zz"), ("from", .str "bad"), ("to", .str "bad2")])
     gSingle "zz" (.valueFormat "zz") rfl rfl,
   C8_error_priority_order.2.2.1 zeroEngine .null "m"
     (.obj [("from", .str "bad"), ("to", .str "bad2")])
     gSingle U256MAX (.addressFormat "bad") rfl rfl,
   C8_error_priority_order.2.2.2 zeroEngine .null "m"
     (.obj [("from", .str addr1Str), ("to", .str "bad2")])
     gSingle U256MAX 1 (.addressFormat "bad2") rfl rfl rfl⟩

/-- C10: `ffi_load_safes_binary` returns the edge count of the newly
installed graph on success — installing it in the dispenser — and `0` on
a failed load, leaving the dispenser untouched, so a failure is
indistinguishable from successfully loading an empty graph. -/
theorem C10_load_count_or_zero :
    ∀ (importResult : Except String Graph) (dispenser : Option Graph),
      (∀ e, importResult = .error e →
        ffi_load_safes_binary importResult dispenser = (0, dispenser))
      ∧ (∀ g, importResult = .ok g →
        ffi_load_safes_binary importResult dispenser = (g.length, some g))
      ∧ ffi_load_safes_binary (.ok []) dispenser = (0, some []) := by
  intro importResult dispenser
  refine ⟨?_, ?_, rfl⟩
  · rintro e rfl; rfl
  · rintro g rfl; rfl

/-- C10 witness: a failed import yields `0` with the dispenser
unchanged; importing one edge yields `1` and installs it; importing an
empty graph also yields `0`. -/
theorem C10_load_count_or_zero_witness :
    ffi_load_safes_binary (.error "io") (some gSingle) = (0, some gSingle)
    ∧ ffi_load_safes_binary (.ok gSingle) none = (1, some gSingle)
    ∧ ffi_load_safes_binary (.ok []) none = (0, some []) :=
  ⟨(C10_load_count_or_zero (.error "io") (some gSingle)).1 "io" rfl,
   (C10_load_count_or_zero (.ok gSingle) none).2.1 gSingle rfl,
   (C10_load_count_or_zero (.ok []) none).2.2⟩

/-- C1: on a query with no route at all between source and destination
(the modelled maximum deliverable value is zero), `compute_transfer`
does NOT fail with the no-route error: the attempt loop returns the
first attempt unconditionally, so a zero-value success is produced and
the "Couldn't find a path" error is unreachable.  This refutes the
claim's success/failure behaviour and evidences the code bug (the
`TODO` above the unconditional `return`). -/
theorem C1_no_route_yields_zero_value_success :
    maxflowNat gNoRoute 1 4 none = 0
    ∧ compute_transfer specEngineValueOnly reqNoRoute ⟨some gNoRoute⟩ =
        .ok ⟨0, true, []⟩ := by
  have hmax : maxflowNat gNoRoute 1 4 none = 0 :=
    maxflowNat_eq_zero _ _ _ _ (gNoRoute_no_flow none)
  refine ⟨hmax, ?_⟩
  have h := compute_transfer_run_noniter specEngineValueOnly .null "compute_transfer"
    reqNoRoute.params gNoRoute 10 1 4 rfl rfl rfl rfl
  calc compute_transfer specEngineValueOnly reqNoRoute ⟨some gNoRoute⟩
      = .ok ⟨min 10 (maxflowNat gNoRoute 1 4 none), true, []⟩ := h
    _ = .ok ⟨0, true, []⟩ := by rw [hmax]; simp

/-- C3: with `iterative: true` the code does not try the bounds
`1, 2, unbounded` until success: it performs exactly one attempt, with
hop bound `1`, and returns its result unconditionally (`final: false`)
even when that attempt achieves nothing while an unbounded attempt would
deliver thirty units.  Evidences the code bug acknowledged by the `TODO`
in `compute_transfer`. -/
theorem C3_iterative_single_hop1_attempt :
    maxflowNat gChain 1 3 (some 1) = 0
    ∧ feasibleFlow gChain 1 3 none 30
    ∧ compute_transfer specEngineValueOnly reqIter100 ⟨some gChain⟩ =
        .ok ⟨0, false, []⟩ := by
  have hmax : maxflowNat gChain 1 3 (some 1) = 0 :=
    maxflowNat_eq_zero _ _ _ _ gChain_hop1_no_flow
  refine ⟨hmax, gChain_feasible_30, ?_⟩
  have h := compute_transfer_run_iter specEngineValueOnly .null "compute_transfer"
    reqIter100.params gChain 100 1 3 rfl rfl rfl rfl
  calc compute_transfer specEngineValueOnly reqIter100 ⟨some gChain⟩
      = .ok ⟨min 100 (maxflowNat gChain 1 3 (some 1)), false, []⟩ := h
    _ = .ok ⟨0, false, []⟩ := by rw [hmax]; simp

/-- C4 counterexample: an iterative query whose target (thirty) has a
feasible plan in the pinned snapshot still succeeds with achieved value
zero, because the single attempt performed uses hop bound `1`; so the
claim "achieved equals target whenever a feasible plan of that size
exists in the pinned snapshot" fails as stated. -/
theorem C4_iterative_misses_feasible_target :
    parseValueParam reqIter30.params = .ok 30
    ∧ feasibleFlow gChain 1 3 none 30
    ∧ compute_transfer specEngineValueOnly reqIter30 ⟨some gChain⟩ =
        .ok ⟨0, false, []⟩ := by
  have hmax : maxflowNat gChain 1 3 (some 1) = 0 :=
    maxflowNat_eq_zero _ _ _ _ gChain_hop1_no_flow
  refine ⟨rfl, gChain_feasible_30, ?_⟩
  have h := compute_transfer_run_iter specEngineValueOnly .null "compute_transfer"
    reqIter30.params gChain 30 1 3 rfl rfl rfl rfl
  calc compute_transfer specEngineValueOnly reqIter30 ⟨some gChain⟩
      = .ok ⟨min 30 (maxflowNat gChain 1 3 (some 1)), false, []⟩ := h
    _ = .ok ⟨0, false, []⟩ := by rw [hmax]; simp

/-- C4 (amended): for every engine meeting the spec contract — the
achieved value never exceeds the target (§4.3, unconditional, with or
without a step bound), and on calls with no step bound it is the
maximum deliverable value under the attempted hop bound capped by the
target — every successful `compute_transfer` result is at most the
parsed target value; and for non-iterative requests with no
`max_transfers` bound (a single unbounded attempt with an untruncated
decomposition) it equals the target whenever a plan of that size is
feasible in the pinned snapshot.  When `max_transfers` binds, §4.3 only
promises the value of some truncated plan and §9 leaves the truncation
policy unspecified, so only the cap half applies there. -/
theorem C4_target_cap_and_completeness :
    ∀ (flowFn : FlowFn),
      (∀ a b g v hops mt, (flowFn a b g v hops mt).1 ≤ v) →
      (∀ a b g v hops, (flowFn a b g v hops none).1 = min v (maxflowNat g a b hops)) →
      ∀ (id : Json) (mth : String) (params : Json) (g : Graph) (a b : Address)
        (target : Nat) (r : Success),
        parseValueParam params = .ok target →
        validate_and_parse_ethereum_address (jsonDisplay (getKey params "from")) = .ok a →
        validate_and_parse_ethereum_address (jsonDisplay (getKey params "to")) = .ok b →
        compute_transfer flowFn ⟨id, mth, params⟩ ⟨some g⟩ = .ok r →
        r.maxFlowValue ≤ target
        ∧ ((getKey params "iterative").asBool.getD false = false →
            (getKey params "max_transfers").asU64 = none →
            feasibleFlow g a b none target → r.maxFlowValue = target) := by
  intro flowFn hcap hexact id mth params g a b target r hv ha hb hok
  by_cases hit : (getKey params "iterative").asBool.getD false = true
  · have h := compute_transfer_run_iter flowFn id mth params g target a b hv ha hb hit
    have hr : r = ⟨(flowFn a b g target (some 1) ((getKey params "max_transfers").asU64)).1,
        false, (flowFn a b g target (some 1) ((getKey params "max_transfers").asU64)).2⟩ := by
      have := h.symm.trans hok
      injection this with h'
      exact h'.symm
    refine ⟨?_, ?_⟩
    · rw [hr]
      exact hcap a b g target (some 1) ((getKey params "max_transfers").asU64)
    · intro hnotit
      rw [hnotit] at hit
      exact absurd hit (by simp)
  · have hitf : (getKey params "iterative").asBool.getD false = false := by
      cases h : (getKey params "iterative").asBool.getD false
      · rfl
      · exact absurd h hit
    have h := compute_transfer_run_noniter flowFn id mth params g target a b hv ha hb hitf
    have hr : r = ⟨(flowFn a b g target none ((getKey params "max_transfers").asU64)).1,
        true, (flowFn a b g target none ((getKey params "max_transfers").asU64)).2⟩ := by
      have := h.symm.trans hok
      injection this with h'
      exact h'.symm
    refine ⟨?_, ?_⟩
    · rw [hr]
      exact hcap a b g target none ((getKey params "max_transfers").asU64)
    · intro _ hmt hfeas
      rw [hr]
      rw [hmt]
      rw [hexact a b g target none]
      exact Nat.min_eq_left (le_maxflowNat g a b none target hfeas)

/-- C4 witness: a concrete non-iterative query for ten units on a
fifty-unit edge, with no `max_transfers` bound, succeeds with achieved
value exactly ten. -/
theorem C4_target_cap_and_completeness_witness :
    feasibleFlow gSingle 1 2 none 10
    ∧ ∃ r : Success,
        compute_transfer specEngineValueOnly reqSingle10 ⟨some gSingle⟩ = .ok r
        ∧ r.maxFlowValue ≤ 10 ∧ r.maxFlowValue = 10 := by
  refine ⟨gSingle_feasible_10, ?_⟩
  have hok : compute_transfer specEngineValueOnly reqSingle10 ⟨some gSingle⟩ =
      .ok ⟨min 10 (maxflowNat gSingle 1 2 none), true, []⟩ :=
    compute_transfer_run_noniter specEngineValueOnly .null "compute_transfer"
      reqSingle10.params gSingle 10 1 2 rfl rfl rfl rfl
  obtain ⟨hle, hcomp⟩ := C4_target_cap_and_completeness specEngineValueOnly
    (fun _ _ _ v _ _ => Nat.min_le_left v _)
    (fun _ _ _ _ _ => rfl)
    .null "compute_transfer" reqSingle10.params gSingle 1 2 10
    ⟨min 10 (maxflowNat gSingle 1 2 none), true, []⟩ rfl rfl rfl hok
  exact ⟨_, hok, hle, hcomp rfl rfl gSingle_feasible_10⟩

/-- C6 counterexample: `"1_0"` is not an unsigned decimal numeral (it
contains a separator), yet `validate_and_parse_u256` accepts it and
returns `10` — `BigUint::from_str` skips underscores — so the claimed
"format error exactly when not a valid unsigned decimal numeral" fails
as stated. -/
theorem C6_separator_string_accepted :
    validate_and_parse_u256 "1_0" = .ok 10
    ∧ isUnsignedDecimalNumeral "1_0" = false :=
  ⟨rfl, rfl⟩

/-- C6 (amended): `validate_and_parse_u256` fails with the value-format
error exactly when the string is not accepted under `BigUint::from_str`'s
rules (one optional leading `'+'`, underscore separators after a leading
digit); when the string is accepted with value `n`, it fails with the
value-range error exactly when `n` exceeds the 256-bit maximum and
otherwise returns `n`. -/
theorem C6_value_parse_trichotomy :
    ∀ s : String,
      (validate_and_parse_u256 s = .error (.valueFormat s) ↔ acceptedNumeral s = none)
      ∧ (∀ n, acceptedNumeral s = some n →
          (U256MAX < n → validate_and_parse_u256 s = .error (.valueRange n))
          ∧ (n ≤ U256MAX → validate_and_parse_u256 s = .ok n)) := by
  intro s
  have heq := biguintFromStr_eq_acceptedNumeral s
  constructor
  · constructor
    · intro h
      cases ha : acceptedNumeral s with
      | none => rfl
      | some n =>
        have hb : biguintFromStr s = some n := heq.trans ha
        simp only [validate_and_parse_u256, hb] at h
        split_ifs at h
        all_goals simp at h
    · intro h
      unfold validate_and_parse_u256
      rw [heq, h]
  · intro n hn
    have hb : biguintFromStr s = some n := heq.trans hn
    constructor
    · intro hgt
      simp only [validate_and_parse_u256, hb]
      rw [if_pos hgt]
    · intro hle
      simp only [validate_and_parse_u256, hb]
      rw [if_neg (Nat.not_lt.mpr hle)]
      have hpow : 0 < 2 ^ 256 := Nat.pos_pow_of_pos _ (by norm_num)
      have hlt : n < 2 ^ 256 := by
        have : n ≤ 2 ^ 256 - 1 := hle
        omega
      rw [Nat.mod_eq_of_lt hlt]

set_option maxRecDepth 4000 in
/-- C6 witness: `"99"` parses to `99`; the decimal numeral of `2^256`
exceeds the 256-bit maximum and is rejected with the range error. -/
theorem C6_value_parse_trichotomy_witness :
    acceptedNumeral "99" = some 99
    ∧ validate_and_parse_u256 "99" = .ok 99
    ∧ acceptedNumeral
        "115792089237316195423570985008687907853269984665640564039457584007913129639936"
        = some (2 ^ 256)
    ∧ validate_and_parse_u256
        "115792089237316195423570985008687907853269984665640564039457584007913129639936"
        = .error (.valueRange (2 ^ 256)) := by
  have h1 : acceptedNumeral "99" = some 99 := by decide
  have h3 : acceptedNumeral
      "115792089237316195423570985008687907853269984665640564039457584007913129639936"
      = some (2 ^ 256) := by decide
  refine ⟨h1, ((C6_value_parse_trichotomy "99").2 99 h1).2 (by decide), h3,
    ((C6_value_parse_trichotomy _).2 (2 ^ 256) h3).1 (by decide)⟩

/-- C7: `validate_and_parse_ethereum_address` accepts a string and
returns an address exactly when the string is `"0x"` followed by exactly
forty hexadecimal digits; every other string is rejected with the
address-format error (the function never touches the graph). -/
theorem C7_address_pattern_exact :
    ∀ s : String,
      ((∃ a, validate_and_parse_ethereum_address s = .ok a) ↔
        ∃ t : String, s = "0x" ++ t ∧ t.length = 40 ∧ ∀ c ∈ t.data, isHexChar c = true)
      ∧ (validate_and_parse_ethereum_address s = .error (.addressFormat s) ↔
        ¬∃ t : String, s = "0x" ++ t ∧ t.length = 40 ∧ ∀ c ∈ t.data, isHexChar c = true) := by
  intro s
  constructor
  · constructor
    · rintro ⟨a, ha⟩
      unfold validate_and_parse_ethereum_address at ha
      by_cases he : isEthAddressString s
      · exact (isEthAddressString_iff s).mp he
      · rw [if_neg he] at ha
        simp at ha
    · intro hp
      have he := (isEthAddressString_iff s).mpr hp
      refine ⟨addressFromHex s, ?_⟩
      unfold validate_and_parse_ethereum_address
      rw [if_pos he]
  · constructor
    · intro herr hp
      have he := (isEthAddressString_iff s).mpr hp
      unfold validate_and_parse_ethereum_address at herr
      rw [if_pos he] at herr
      simp at herr
    · intro hnp
      have he : ¬(isEthAddressString s = true) := fun h =>
        hnp ((isEthAddressString_iff s).mp h)
      unfold validate_and_parse_ethereum_address
      rw [if_neg he]

end Pathfinder
